import Mathlib

/-!
# REACHA: shallow embedding and verification

This file embeds the REACHA frontend sources (`flont/lib/api.ts`, the
`app/company/[company]` pages, `components/CompanyForm.tsx`,
`app/company/[company]/proposal/Client.tsx`) as Lean definitions and models
the backend job core from `spec.md` (the FastAPI backend `back/app/main.py`
is not part of the source tree; every definition derived from the spec text
is marked `Modelled from the spec:`).  Theorems settle the behavioural
claims about the single-flight supervisor, the status reconciler, the run
planner, the proposal pipeline, and the frontend API helpers.
-/

namespace REACHA

/-! ## `lib/api.ts`: `apiPost` timeout and abort classification -/

/-- Resolved timeout of `apiPost`: the source computes
`options?.timeout || 600000`, and JavaScript `||` treats both `undefined`
and `0` as falsy, so both fall back to the 600000 ms default. -/
def resolveTimeout (timeoutOpt : Option Nat) : Nat :=
  match timeoutOpt with
  | none => 600000
  | some t => if t = 0 then 600000 else t

/-- Environment of one `apiPost` call: the `options?.timeout` argument,
whether `options?.signal` was supplied, the time (ms after the call) at
which that external signal aborts if it ever does, and the time at which
the underlying `fetch` would settle on its own. -/
structure ApiPostEnv where
  timeoutOpt : Option Nat
  hasSignal : Bool
  extAbortTime : Option Nat
  fetchTime : Nat
deriving DecidableEq

/-- Time at which the `abort` listener registered on the external signal
fires the controller; `none` when no signal was passed or it never aborts. -/
def externalAbortAt (e : ApiPostEnv) : Option Nat :=
  if e.hasSignal then e.extAbortTime else none

/-- Moment the `AbortController` of `apiPost` fires: the earliest of the
`setTimeout` timer and the external-signal listener. -/
def controllerAbortAt (e : ApiPostEnv) : Nat :=
  match externalAbortAt e with
  | none => resolveTimeout e.timeoutOpt
  | some t => min (resolveTimeout e.timeoutOpt) t

/-- The `fetch` rejects with an `AbortError` iff the controller fires
before the request settles on its own. -/
def fetchAborted (e : ApiPostEnv) : Bool :=
  decide (controllerAbortAt e < e.fetchTime)

/-- Value of `externalSignal?.aborted` observed in the catch handler,
i.e. whether the external signal had aborted by the time the controller
fired. -/
def externalAbortedAtCatch (e : ApiPostEnv) : Bool :=
  match externalAbortAt e with
  | none => false
  | some t => decide (t ≤ controllerAbortAt e)

/-- Errors thrown by `apiPost`, keyed by the Japanese messages in the
source: request cancelled, request timed out, HTTP error detail, network
failure. -/
inductive ApiErr where
  | cancelMsg
  | timeoutMsg
  | httpMsg (status : Nat) (detail : Option String)
  | networkMsg
deriving DecidableEq

/-- Outcome of the underlying `fetch` when it is not aborted. -/
inductive FetchResult where
  | ok (body : String)
  | httpError (status : Nat) (detail : Option String)
  | networkFailure
deriving DecidableEq

/-- `apiPost` from `lib/api.ts`: on an `AbortError` it reports the
cancellation error when `externalSignal?.aborted` is set and the timeout
error otherwise; HTTP and network failures map to their own errors. -/
def apiPost (e : ApiPostEnv) (res : FetchResult) : Except ApiErr String :=
  if fetchAborted e then
    .error (if externalAbortedAtCatch e then .cancelMsg else .timeoutMsg)
  else
    match res with
    | .ok body => .ok body
    | .httpError status detail => .error (.httpMsg status detail)
    | .networkFailure => .error .networkMsg

/-! ## `generateStaticParams` of the company and proposal pages -/

/-- Directory entry as returned by `readdirSync` with `withFileTypes`. -/
structure Dirent where
  name : String
  isDir : Bool
deriving DecidableEq

/-- `generateStaticParams` shared verbatim by `app/company/[company]/page.tsx`
and `app/company/[company]/proposal/page.tsx`: list the names of the
subdirectories of `../back/outputs`, falling back to the empty list when
`readdirSync` throws. -/
def generateStaticParams (readdir : Except String (List Dirent)) : List String :=
  match readdir with
  | .error _ => []
  | .ok entries => (entries.filter (fun d => d.isDir)).map (fun d => d.name)

/-! ## `ProposalClient.fetchProposal`: lexical scoping of the finally guard -/

/-- Parameters of `fetchProposal` in `proposal/Client.tsx`, the function
scope enclosing its try/catch/finally statement. -/
def fetchProposalParams : List String := ["isRetry", "signal"]

/-- `let` declarations inside the `try` block of `fetchProposal`
(`progressInterval`, `postAbortController`, `proposalCompleted`); `let` is
block-scoped, so these names are confined to the `try` block. -/
def tryBlockDecls : List String :=
  ["progressInterval", "postAbortController", "proposalCompleted"]

/-- Declarations introduced by the `finally` block itself: none. -/
def finallyBlockDecls : List String := []

/-- Bindings of the `ProposalClient` component scope that encloses
`fetchProposal` (props and `useState`/hook bindings). -/
def proposalClientDecls : List String :=
  ["company", "router", "proposal", "setProposal", "loading", "setLoading",
   "error", "setError", "progress", "setProgress", "retryCount",
   "setRetryCount", "fetchProposal"]

/-- Names lexically visible inside the `finally` block: its own (empty)
block scope, the function scope of `fetchProposal`, and the enclosing
component scope.  The `try` block is a sibling block, not an ancestor, so
its `let` declarations are not visible here. -/
def visibleInFinally : List String :=
  finallyBlockDecls ++ fetchProposalParams ++ proposalClientDecls

/-- Variables read by the guard of the `finally` clause,
`!signal?.aborted && !proposalCompleted`. -/
def finallyGuardReads : List String := ["signal", "proposalCompleted"]

/-! ## Data model: topic artifacts (spec §3) -/

/-- Topic artifact content as stored per entity and topic (text and
markdown files `{Company}_{i}.txt/.md`). -/
structure TopicArtifact where
  text : String
  markdown : String
deriving DecidableEq

/-- Modelled from the spec: an artifact is "complete" iff its text or
markdown content is non-empty (§3; the backend `back/app/main.py` that
evaluates this is not in the tree). -/
def TopicArtifact.complete (a : TopicArtifact) : Bool :=
  !a.text.isEmpty || !a.markdown.isEmpty

/-- The five topic indices 1..5, zero-indexed as `Fin 5`. -/
def allTopics : List (Fin 5) := [0, 1, 2, 3, 4]

/-! ## `components/CompanyForm.tsx`: the query-selection form -/

/-- `DEFAULT_QUERIES` from `CompanyForm.tsx`: the five fixed research
queries, one per topic. -/
def DEFAULT_QUERIES : List String :=
  ["事業の全体像", "外部環境と市場評価", "競争優位と差別化要因",
   "直近のニュース取得", "世間の評価"]

/-- `toggleQuery` from `CompanyForm.tsx`: remove the query when selected,
append it otherwise. -/
def toggleQuery (q : String) (prev : List String) : List String :=
  if prev.contains q then prev.filter (fun x => !(x == q)) else prev ++ [q]

/-- `selectAll` from `CompanyForm.tsx`: select the full default set. -/
def selectAll : List String := DEFAULT_QUERIES

/-- `clearAll` from `CompanyForm.tsx`: deselect every query, yielding the
empty selection. -/
def clearAll : List String := []

/-- `onSubmit` from `CompanyForm.tsx` posts `{company, queries: selected}`
to `/api/run`: the request body carries exactly the selected queries. -/
def submittedQueries (selected : List String) : List String := selected

/-- Topic indices named by a list of query strings, via their position in
`DEFAULT_QUERIES`. -/
def queryTopics (qs : List String) : List (Fin 5) :=
  allTopics.filter (fun i => qs.contains (DEFAULT_QUERIES.getD i.val ""))

/-! ## Run Planner and Runner effect (spec §4.4, spec-modelled) -/

/-- The requested topic list names every topic, i.e. equals the full
default set as a set. -/
def isFullSet (ts : List (Fin 5)) : Bool :=
  allTopics.all (fun i => ts.contains i)

/-- The request omits the topic list or passes the full default set. -/
def isDefaultOrFull (requested : Option (List (Fin 5))) : Bool :=
  match requested with
  | none => true
  | some ts => isFullSet ts

/-- Modelled from the spec: the Run Planner (§4.4; `back/app/main.py` is
not in the tree).  An omitted or full request plans only the currently
incomplete topics; an explicit non-full subset is planned exactly as
given, unconditionally. -/
def planTopics (requested : Option (List (Fin 5)))
    (arts : Fin 5 → TopicArtifact) : List (Fin 5) :=
  match requested with
  | none => allTopics.filter (fun i => !(arts i).complete)
  | some ts =>
    if isFullSet ts then allTopics.filter (fun i => !(arts i).complete)
    else ts

/-- Modelled from the spec: the Runner overwrites each planned topic with
the freshly streamed content and leaves every other topic untouched
(§4.4, §2; `back/app/main.py` is not in the tree). -/
def runTopics (plan : List (Fin 5)) (fresh : Fin 5 → TopicArtifact)
    (arts : Fin 5 → TopicArtifact) : Fin 5 → TopicArtifact :=
  fun i => if i ∈ plan then fresh i else arts i

/-! ## Job Supervisor and single-flight lock (spec §4.1, spec-modelled) -/

/-- Supervisor-local state: the single Job Record slot, holding the name
of the entity that owns the lock while its Runner process lives. -/
structure SupState where
  lock : Option String
deriving DecidableEq

/-- Outcome of one `StartRun` call: a Runner was spawned for the planned
topics, the single-flight lock was busy (naming the holder), or a
default/full request found all topics complete and returned the existing
artifacts without spawning. -/
inductive StartRunResult where
  | Started (plan : List (Fin 5))
  | Busy (heldBy : String)
  | CompletedNoSpawn
deriving DecidableEq

/-- Modelled from the spec: `StartRun` (§2 control flow, §4.1, §4.4;
`back/app/main.py` is not in the tree).  The request first goes through
the Run Planner; a default/full request with nothing left to run skips
execution entirely, otherwise the Supervisor tries to acquire the
exclusive lock, reporting the holder when busy, and spawns the Runner on
acquisition. -/
def startRun (s : SupState) (entity : String)
    (requested : Option (List (Fin 5))) (arts : Fin 5 → TopicArtifact) :
    StartRunResult × SupState :=
  let plan := planTopics requested arts
  if isDefaultOrFull requested && plan.isEmpty then (.CompletedNoSpawn, s)
  else
    match s.lock with
    | some h => (.Busy h, s)
    | none => (.Started plan, ⟨some entity⟩)

/-- One `StartRun` request: target entity, optional topic subset, and the
artifact state it observes. -/
structure StartCall where
  entity : String
  requested : Option (List (Fin 5))
  arts : Fin 5 → TopicArtifact

/-- A collection of concurrent `StartRun` calls serialises through the
process-wide mutex into some arrival order; process them in that order
with no intervening process exit. -/
def processStarts (s : SupState) (calls : List StartCall) :
    List StartRunResult × SupState :=
  match calls with
  | [] => ([], s)
  | c :: rest =>
    let first := startRun s c.entity c.requested c.arts
    let later := processStarts first.2 rest
    (first.1 :: later.1, later.2)

/-- The call spawned a Runner. -/
def isStarted : StartRunResult → Bool
  | .Started _ => true
  | _ => false

/-- Modelled from the spec: the monitoring routine releases the lock when
the supervised process exits (§4.1; `back/app/main.py` is not in the
tree). -/
def onExit (_ : SupState) : SupState := ⟨none⟩

/-- All five artifacts complete (concrete test fixture). -/
def artsDone : Fin 5 → TopicArtifact := fun _ => ⟨"done", "done"⟩

/-- All five artifacts empty (concrete test fixture). -/
def artsEmpty : Fin 5 → TopicArtifact := fun _ => ⟨"", ""⟩

/-! ## Status Reconciler (spec §4.2, spec-modelled) -/

/-- Per-entity marker files on durable storage: creation time of
`.running`, mtime of `.heartbeat`, and presence of `.done` / `.aborted`
(`none` for a marker that does not exist). -/
structure MarkerSet where
  runningCreatedAt : Option Nat
  heartbeatMtime : Option Nat
  doneExists : Bool
  abortedExists : Bool
deriving DecidableEq

/-- Environment-sourced reconciler configuration. -/
structure ReconConfig where
  HEARTBEAT_STALE_SECONDS : Nat
  MAX_RUN_SECONDS : Nat
deriving DecidableEq

/-- Everything the reconciler reads for one entity: the supervisor's
in-memory Job Record (entity holding it, if any), liveness of its
process, the marker files, and the stored artifacts. -/
structure StatusInput where
  memRecord : Option String
  processAlive : Bool
  markers : MarkerSet
  arts : Fin 5 → TopicArtifact

/-- Modelled from the spec: the crash-survival disk check (§4.2 step 2;
`back/app/main.py` is not in the tree): `.running` exists, `.heartbeat`
exists with mtime within `HEARTBEAT_STALE_SECONDS` of now, and elapsed
time since `.running` creation is within `MAX_RUN_SECONDS`. -/
def diskRunningFresh (cfg : ReconConfig) (now : Nat) (m : MarkerSet) : Bool :=
  match m.runningCreatedAt, m.heartbeatMtime with
  | some t0, some hb =>
    decide (now - hb ≤ cfg.HEARTBEAT_STALE_SECONDS)
      && decide (now - t0 ≤ cfg.MAX_RUN_SECONDS)
  | _, _ => false

/-- Externally visible job states. -/
inductive JobState where
  | not_found
  | running
  | completed
deriving DecidableEq

/-- Modelled from the spec: the Status Reconciler algorithm (§4.2 steps
1–5; `back/app/main.py` is not in the tree): in-memory record alive →
running; else fresh disk markers → running; else `.done` → completed;
else any topic content → completed; else not_found. -/
def statusOf (cfg : ReconConfig) (now : Nat) (entity : String)
    (inp : StatusInput) : JobState :=
  if (inp.memRecord == some entity) && inp.processAlive then .running
  else if diskRunningFresh cfg now inp.markers then .running
  else if inp.markers.doneExists then .completed
  else if allTopics.any (fun i => (inp.arts i).complete) then .completed
  else .not_found

/-- Modelled from the spec: per-entity progress, a pure function of the
stored artifacts — count of requested topics with non-empty content over
the number of requested topics (§4.2; `back/app/main.py` is not in the
tree). -/
structure Progress where
  completedCount : Nat
  total : Nat
deriving DecidableEq

/-- Progress over the requested topics, computed from artifacts alone. -/
def progressOf (requested : List (Fin 5)) (arts : Fin 5 → TopicArtifact) :
    Progress :=
  ⟨(requested.filter (fun i => (arts i).complete)).length, requested.length⟩

/-- Modelled from the spec: `GetStatus` combines the reconciled state
with the artifact-only progress (§4.2, §6; `back/app/main.py` is not in
the tree). -/
def getStatus (cfg : ReconConfig) (now : Nat) (entity : String)
    (inp : StatusInput) (requested : List (Fin 5)) : JobState × Progress :=
  (statusOf cfg now entity inp, progressOf requested inp.arts)

/-! ## Proposal Pipeline (spec §4.3, spec-modelled) -/

/-- Status values of the proposal progress counter file. -/
inductive ProgStatus where
  | idle
  | running
  | completed
deriving DecidableEq

/-- Proposal progress counter file: `current`, `total`, `status`. -/
structure ProposalProgress where
  current : Nat
  total : Nat
  status : ProgStatus
deriving DecidableEq

/-- Durable proposal state of one entity: the persisted proposal
artifact, if any, and the progress counter file. -/
structure ProposalState where
  artifact : Option String
  progress : ProposalProgress
deriving DecidableEq

/-- Modelled from the spec: the proposal transformation loop (§4.3;
`back/app/main.py` is not in the tree).  For each topic input in order:
strip URL-shaped substrings, send to the External Job Client in
transformation mode, append the result, bump `current`; a failure on any
topic aborts the whole proposal.  Returns the outcome, the final progress
counter, and the number of external client invocations. -/
def proposalLoop (client : String → Except String String)
    (strip : String → String) (inputs : List String) (total : Nat)
    (k : Nat) (acc : String) :
    Except String String × ProposalProgress × Nat :=
  match inputs with
  | [] => (.ok acc, ⟨k, total, .completed⟩, 0)
  | x :: rest =>
    match client (strip x) with
    | .error e => (.error e, ⟨k, total, .running⟩, 1)
    | .ok out =>
      let later := proposalLoop client strip rest total (k + 1) (acc ++ out)
      (later.1, later.2.1, later.2.2 + 1)

/-- Modelled from the spec: `CreateProposal` (§4.3; `back/app/main.py`
is not in the tree): return the persisted artifact immediately on a cache
hit with no external call; otherwise run the transformation loop and
persist the result only on full success. -/
def createProposal (client : String → Except String String)
    (strip : String → String) (inputs : List String) (st : ProposalState) :
    Except String String × ProposalState × Nat :=
  match st.artifact with
  | some a => (.ok a, st, 0)
  | none =>
    let r := proposalLoop client strip inputs inputs.length 0 ""
    match r.1 with
    | .ok p => (.ok p, ⟨some p, r.2.1⟩, r.2.2)
    | .error e => (.error e, ⟨none, r.2.1⟩, r.2.2)

/-- Modelled from the spec: the non-blocking progress-read endpoint
(§4.3, §6; `back/app/main.py` is not in the tree). -/
def getProposalProgress (st : ProposalState) : ProposalProgress :=
  st.progress

/-- The client fails on the topic at position `k` of the inputs, every
earlier topic having succeeded: the failure the loop actually hits. -/
def failsAtTopic (client : String → Except String String)
    (strip : String → String) (inputs : List String) (k : Nat) : Prop :=
  k < inputs.length ∧
  (∀ j, j < k → ∃ out, client (strip (inputs.getD j "")) = .ok out) ∧
  (∃ e, client (strip (inputs.getD k "")) = .error e)

/-! ## Claim theorems for the frontend code -/

/-- C9: when `apiPost` is called with no timeout option or a timeout of 0
the abort timer fires at exactly 600000 ms; an abort with the external
signal not aborted surfaces as the timeout error, and an abort with the
external signal aborted surfaces as the cancellation error. -/
theorem apiPost_default_timeout (e : ApiPostEnv) (res : FetchResult)
    (hdef : e.timeoutOpt = none ∨ e.timeoutOpt = some 0) :
    resolveTimeout e.timeoutOpt = 600000 ∧
    (externalAbortAt e = none → controllerAbortAt e = 600000) ∧
    (fetchAborted e = true → externalAbortedAtCatch e = false →
      apiPost e res = .error .timeoutMsg) ∧
    (fetchAborted e = true → externalAbortedAtCatch e = true →
      apiPost e res = .error .cancelMsg) := by
  refine ⟨?_, ?_, ?_, ?_⟩
  · rcases hdef with h | h <;> simp [resolveTimeout, h]
  · intro hext
    simp [controllerAbortAt, hext]
    rcases hdef with h | h <;> simp [resolveTimeout, h]
  · intro hab hext
    simp [apiPost, hab, hext]
  · intro hab hext
    simp [apiPost, hab, hext]

/-- Witness for C9 at a concrete call: no timeout option, no external
signal, a fetch that would settle at 700000 ms. -/
theorem apiPost_default_timeout_witness :
    resolveTimeout (ApiPostEnv.mk none false none 700000).timeoutOpt = 600000 ∧
    (externalAbortAt (ApiPostEnv.mk none false none 700000) = none →
      controllerAbortAt (ApiPostEnv.mk none false none 700000) = 600000) ∧
    (fetchAborted (ApiPostEnv.mk none false none 700000) = true →
      externalAbortedAtCatch (ApiPostEnv.mk none false none 700000) = false →
      apiPost (ApiPostEnv.mk none false none 700000) (.ok "x")
        = .error .timeoutMsg) ∧
    (fetchAborted (ApiPostEnv.mk none false none 700000) = true →
      externalAbortedAtCatch (ApiPostEnv.mk none false none 700000) = true →
      apiPost (ApiPostEnv.mk none false none 700000) (.ok "x")
        = .error .cancelMsg) :=
  apiPost_default_timeout (ApiPostEnv.mk none false none 700000) (.ok "x")
    (Or.inl rfl)

/-- C10: `generateStaticParams` (identical in the company page and the
proposal page) is total: it returns `[]` whenever the outputs directory
cannot be read, and otherwise exactly one company parameter per
subdirectory of `outputs`. -/
theorem generateStaticParams_total :
    (∀ msg, generateStaticParams (.error msg) = []) ∧
    (∀ entries, generateStaticParams (.ok entries)
        = (entries.filter (fun d => d.isDir)).map (fun d => d.name) ∧
      (generateStaticParams (.ok entries)).length
        = entries.countP (fun d => d.isDir)) := by
  refine ⟨fun msg => rfl, fun entries => ⟨rfl, ?_⟩⟩
  simp [generateStaticParams, List.countP_eq_length_filter]

/-- C8 evidence: the `finally` guard of `fetchProposal` reads
`proposalCompleted`, which is declared by `let` inside the sibling `try`
block and is not among the names lexically visible in the `finally`
block, so the read cannot resolve. -/
theorem fetchProposal_finally_scope_bug :
    "proposalCompleted" ∈ finallyGuardReads ∧
    "proposalCompleted" ∈ tryBlockDecls ∧
    "proposalCompleted" ∉ visibleInFinally ∧
    ¬ (∀ v ∈ finallyGuardReads, v ∈ visibleInFinally) := by
  refine ⟨by decide, by decide, by decide, ?_⟩
  intro h
  exact absurd (h "proposalCompleted" (by decide)) (by decide)

/-! ## Single-flight lock (C1) -/

/-- While the lock is held, no further `StartRun` call spawns: every call
is `Busy` naming the holder or a no-spawn skip, and the lock is kept. -/
theorem processStarts_locked (hname : String) (calls : List StartCall) :
    ∀ s : SupState, s.lock = some hname →
      (∀ r ∈ (processStarts s calls).1,
          r = StartRunResult.Busy hname ∨ r = StartRunResult.CompletedNoSpawn) ∧
      (processStarts s calls).2.lock = some hname ∧
      (processStarts s calls).1.countP isStarted = 0 := by
  induction calls with
  | nil => intro s hs; simp [processStarts, hs]
  | cons c rest ih =>
    intro s hs
    by_cases hskip :
        (isDefaultOrFull c.requested
          && (planTopics c.requested c.arts).isEmpty) = true
    · have hstep : startRun s c.entity c.requested c.arts
          = (StartRunResult.CompletedNoSpawn, s) := by
        simp [startRun, hskip]
      rcases ih s hs with ⟨hall, hlock, hcount⟩
      refine ⟨?_, ?_, ?_⟩
      · intro r hr
        simp only [processStarts, hstep] at hr
        rcases List.mem_cons.mp hr with h1 | h2
        · exact Or.inr h1
        · exact hall r h2
      · simpa [processStarts, hstep] using hlock
      · simp [processStarts, hstep, List.countP_cons, isStarted, hcount]
    · have hstep : startRun s c.entity c.requested c.arts
          = (StartRunResult.Busy hname, s) := by
        simp [startRun, hskip, hs]
      rcases ih s hs with ⟨hall, hlock, hcount⟩
      refine ⟨?_, ?_, ?_⟩
      · intro r hr
        simp only [processStarts, hstep] at hr
        rcases List.mem_cons.mp hr with h1 | h2
        · exact Or.inl h1
        · exact hall r h2
      · simpa [processStarts, hstep] using hlock
      · simp [processStarts, hstep, List.countP_cons, isStarted, hcount]

/-- Among any serialised collection of `StartRun` calls, at most one
spawns a Runner. -/
theorem processStarts_countP_le_one (calls : List StartCall) :
    ∀ s : SupState, (processStarts s calls).1.countP isStarted ≤ 1 := by
  induction calls with
  | nil => intro s; simp [processStarts]
  | cons c rest ih =>
    intro s
    by_cases hskip :
        (isDefaultOrFull c.requested
          && (planTopics c.requested c.arts).isEmpty) = true
    · have hstep : startRun s c.entity c.requested c.arts
          = (StartRunResult.CompletedNoSpawn, s) := by
        simp [startRun, hskip]
      simpa [processStarts, hstep, List.countP_cons, isStarted] using ih s
    · cases hlock : s.lock with
      | some hname =>
        have hstep : startRun s c.entity c.requested c.arts
            = (StartRunResult.Busy hname, s) := by
          simp [startRun, hskip, hlock]
        simpa [processStarts, hstep, List.countP_cons, isStarted] using ih s
      | none =>
        have hstep : startRun s c.entity c.requested c.arts
            = (StartRunResult.Started (planTopics c.requested c.arts),
               ⟨some c.entity⟩) := by
          simp [startRun, hskip, hlock]
        have hz := (processStarts_locked c.entity rest ⟨some c.entity⟩ rfl).2.2
        simp [processStarts, hstep, List.countP_cons, isStarted, hz]

/-- C1 counterexample: lock free, two serialised concurrent calls; the
first is `Started`, but the second — a default request on an entity whose
five topics are all complete — returns `CompletedNoSpawn`, not `Busy`,
even though the first still holds the lock. -/
theorem startRun_single_flight_counterexample :
    (processStarts ⟨none⟩
        [⟨"A", none, artsEmpty⟩, ⟨"B", none, artsDone⟩]).1
      = [.Started allTopics, .CompletedNoSpawn] ∧
    (processStarts ⟨none⟩
        [⟨"A", none, artsEmpty⟩, ⟨"B", none, artsDone⟩]).2.lock = some "A" ∧
    (∀ hname, StartRunResult.CompletedNoSpawn ≠ StartRunResult.Busy hname) :=
  ⟨by decide, by decide, fun hname h => StartRunResult.noConfusion h⟩

/-- C1 (amended): among any serialised collection of concurrent
`StartRun` calls at most one returns `Started`; while the lock is held
every call returns `Busy` naming the holding entity or completes without
spawning (all-complete default request), spawns nothing, and leaves the
lock with its holder until the process-exit notification releases it. -/
theorem startRun_single_flight (s : SupState) (calls : List StartCall) :
    (processStarts s calls).1.countP isStarted ≤ 1 ∧
    (∀ hname, s.lock = some hname →
      (processStarts s calls).1.countP isStarted = 0 ∧
      (∀ r ∈ (processStarts s calls).1,
          r = StartRunResult.Busy hname ∨ r = StartRunResult.CompletedNoSpawn) ∧
      (processStarts s calls).2.lock = some hname) ∧
    (onExit (processStarts s calls).2).lock = none := by
  refine ⟨processStarts_countP_le_one calls s, fun hname hs => ?_, rfl⟩
  rcases processStarts_locked hname calls s hs with ⟨hall, hlock, hcount⟩
  exact ⟨hcount, hall, hlock⟩

/-- Witness for C1: a single call arriving while entity `A` holds the
lock spawns nothing and leaves the lock with `A`. -/
theorem startRun_single_flight_witness :
    (processStarts ⟨some "A"⟩ [⟨"B", none, artsEmpty⟩]).1.countP isStarted = 0 ∧
    (processStarts ⟨some "A"⟩ [⟨"B", none, artsEmpty⟩]).2.lock = some "A" :=
  ⟨((startRun_single_flight ⟨some "A"⟩ [⟨"B", none, artsEmpty⟩]).2.1 "A" rfl).1,
   ((startRun_single_flight ⟨some "A"⟩ [⟨"B", none, artsEmpty⟩]).2.1 "A" rfl).2.2⟩

/-! ## Run Planner (C3, C4) -/

/-- C3: a `StartRun` whose topic list is omitted or equal to the full
default set plans only topics with currently empty content; complete
topics are untouched byte-for-byte by the run; when all five topics are
complete no Runner is spawned and the call returns completed immediately
with the supervisor state unchanged; the form's `selectAll` selection
maps to the full-set branch. -/
theorem startRun_default_resumes (requested : Option (List (Fin 5)))
    (arts fresh : Fin 5 → TopicArtifact) (entity : String) (s : SupState)
    (hdef : isDefaultOrFull requested = true) :
    (∀ i ∈ planTopics requested arts, (arts i).complete = false) ∧
    (∀ i, (arts i).complete = true →
      runTopics (planTopics requested arts) fresh arts i = arts i) ∧
    ((∀ i, (arts i).complete = true) →
      startRun s entity requested arts = (.CompletedNoSpawn, s)) ∧
    isDefaultOrFull (some (queryTopics (submittedQueries selectAll))) = true := by
  have hplan : planTopics requested arts
      = allTopics.filter (fun i => !(arts i).complete) := by
    cases requested with
    | none => rfl
    | some ts =>
      simp only [isDefaultOrFull] at hdef
      simp [planTopics, hdef]
  have hmem : ∀ i ∈ planTopics requested arts, (arts i).complete = false := by
    intro i hi
    rw [hplan] at hi
    simpa using (List.mem_filter.mp hi).2
  refine ⟨hmem, ?_, ?_, by decide⟩
  · intro i hc
    have hni : i ∉ planTopics requested arts := by
      intro hi
      have hfalse := hmem i hi
      rw [hc] at hfalse
      cases hfalse
    simp [runTopics, hni]
  · intro hall
    have hnil : planTopics requested arts = [] := by
      rw [hplan]
      refine List.filter_eq_nil_iff.mpr ?_
      intro i _
      simp [hall i]
    simp [startRun, hnil, hdef]

/-- Witness for C3: a default request on an entity with all five topics
complete skips execution, and a complete topic survives the run
unchanged. -/
theorem startRun_default_resumes_witness :
    startRun ⟨none⟩ "ACME" none artsDone = (.CompletedNoSpawn, ⟨none⟩) ∧
    runTopics (planTopics none artsDone) artsEmpty artsDone 2 = artsDone 2 :=
  ⟨(startRun_default_resumes none artsDone artsEmpty "ACME" ⟨none⟩ rfl).2.2.1
      (fun _ => rfl),
   (startRun_default_resumes none artsDone artsEmpty "ACME" ⟨none⟩ rfl).2.1 2
      (by decide)⟩

/-- C4: a `StartRun` with an explicit non-full topic subset plans exactly
that subset; each topic in the subset is overwritten with the fresh
content even when already complete, and every topic outside the subset is
left unchanged; the form's `clearAll` selection produces the empty
subset, which is non-full and is covered. -/
theorem startRun_explicit_subset (ts : List (Fin 5))
    (arts fresh : Fin 5 → TopicArtifact)
    (hnf : isFullSet ts = false) :
    planTopics (some ts) arts = ts ∧
    (∀ i ∈ ts, runTopics (planTopics (some ts) arts) fresh arts i = fresh i) ∧
    (∀ i, i ∉ ts → runTopics (planTopics (some ts) arts) fresh arts i = arts i) ∧
    queryTopics (submittedQueries clearAll) = [] ∧
    isFullSet (queryTopics (submittedQueries clearAll)) = false := by
  have hplan : planTopics (some ts) arts = ts := by simp [planTopics, hnf]
  refine ⟨hplan, ?_, ?_, by decide, by decide⟩
  · intro i hi
    simp [runTopics, hplan, hi]
  · intro i hi
    simp [runTopics, hplan, hi]

/-- Witness for C4: the explicit subset `[2]` overwrites the complete
topic 2 and leaves topic 0 untouched. -/
theorem startRun_explicit_subset_witness :
    planTopics (some [2]) artsDone = [2] ∧
    runTopics (planTopics (some [2]) artsDone) artsEmpty artsDone 2
      = artsEmpty 2 ∧
    runTopics (planTopics (some [2]) artsDone) artsEmpty artsDone 0
      = artsDone 0 :=
  ⟨(startRun_explicit_subset [2] artsDone artsEmpty (by decide)).1,
   (startRun_explicit_subset [2] artsDone artsEmpty (by decide)).2.1 2
      (by decide),
   (startRun_explicit_subset [2] artsDone artsEmpty (by decide)).2.2.1 0
      (by decide)⟩

/-! ## Status Reconciler (C2) -/

/-- C2: `GetStatus` reports running iff the in-memory Job Record names
the entity with a live process or the disk markers are fresh within both
the heartbeat-staleness and max-run windows; with no live in-memory
record, once the heartbeat age exceeds `HEARTBEAT_STALE_SECONDS` and no
`.done` marker exists the reported state is not running; and the state
is always one of not_found, running, completed. -/
theorem getStatus_running_iff (cfg : ReconConfig) (now : Nat)
    (entity : String) (inp : StatusInput) :
    (statusOf cfg now entity inp = .running ↔
      ((inp.memRecord = some entity ∧ inp.processAlive = true) ∨
        diskRunningFresh cfg now inp.markers = true)) ∧
    (¬(inp.memRecord = some entity ∧ inp.processAlive = true) →
      ∀ hb, inp.markers.heartbeatMtime = some hb →
        cfg.HEARTBEAT_STALE_SECONDS < now - hb →
        inp.markers.doneExists = false →
        statusOf cfg now entity inp ≠ .running) ∧
    (statusOf cfg now entity inp = .not_found ∨
      statusOf cfg now entity inp = .running ∨
      statusOf cfg now entity inp = .completed) := by
  have hmem : (((inp.memRecord == some entity) && inp.processAlive) = true) ↔
      (inp.memRecord = some entity ∧ inp.processAlive = true) := by
    simp [Bool.and_eq_true]
  refine ⟨?_, ?_, ?_⟩
  · by_cases h1 : ((inp.memRecord == some entity) && inp.processAlive) = true
    · simp [statusOf, h1, hmem.mp h1]
    · by_cases h2 : diskRunningFresh cfg now inp.markers = true
      · simp [statusOf, h1, h2]
      · have hm : ¬(inp.memRecord = some entity ∧ inp.processAlive = true) :=
          fun hc => h1 (hmem.mpr hc)
        simp only [statusOf, h1, h2, if_false, Bool.false_eq_true]
        simp only [hm, h2, or_self, iff_false, Bool.false_eq_true, or_false]
        split_ifs <;> simp
  · intro hnm hb hhb hstale hdone
    have hdisk : diskRunningFresh cfg now inp.markers = false := by
      cases hrc : inp.markers.runningCreatedAt with
      | none => simp [diskRunningFresh, hrc, hhb]
      | some t0 =>
        have hnle : ¬(now - hb ≤ cfg.HEARTBEAT_STALE_SECONDS) :=
          Nat.not_le.mpr hstale
        simp [diskRunningFresh, hrc, hhb, hnle]
    have h1 : ¬(((inp.memRecord == some entity) && inp.processAlive) = true) :=
      fun hc => hnm (hmem.mp hc)
    simp only [statusOf, h1, hdisk, if_false, Bool.false_eq_true]
    split_ifs <;> simp
  · cases hv : statusOf cfg now entity inp <;> simp

/-- Witness for C2: no in-memory record, `.running` created at 0,
heartbeat last written at 100, now 1000, staleness window 60: the
heartbeat is stale and the state is not running. -/
theorem getStatus_running_iff_witness :
    statusOf ⟨60, 3600⟩ 1000 "A"
      ⟨none, false, ⟨some 0, some 100, false, false⟩, artsEmpty⟩
      ≠ .running :=
  (getStatus_running_iff ⟨60, 3600⟩ 1000 "A"
      ⟨none, false, ⟨some 0, some 100, false, false⟩, artsEmpty⟩).2.1
    (by decide) 100 rfl (by decide) rfl

/-! ## Proposal Pipeline (C5, C6) -/

/-- When the client fails on the topic at position `k`, the
transformation loop surfaces an error and leaves the progress status at
`running`, never `completed`. -/
theorem proposalLoop_fail (client : String → Except String String)
    (strip : String → String) :
    ∀ (inputs : List String) (k total kk : Nat) (acc : String),
      failsAtTopic client strip inputs k →
      ∃ e, (proposalLoop client strip inputs total kk acc).1 = .error e ∧
        (proposalLoop client strip inputs total kk acc).2.1.status
          = .running := by
  intro inputs
  induction inputs with
  | nil =>
    intro k total kk acc hf
    exact absurd hf.1 (by simp)
  | cons x rest ih =>
    intro k total kk acc hf
    cases k with
    | zero =>
      obtain ⟨e, he⟩ := hf.2.2
      simp only [List.getD_cons_zero] at he
      exact ⟨e, by simp [proposalLoop, he], by simp [proposalLoop, he]⟩
    | succ k2 =>
      obtain ⟨out, hout⟩ := hf.2.1 0 (Nat.succ_pos k2)
      simp only [List.getD_cons_zero] at hout
      have hrest : failsAtTopic client strip rest k2 := by
        refine ⟨?_, ?_, ?_⟩
        · simpa [Nat.succ_lt_succ_iff] using hf.1
        · intro j hj
          simpa using hf.2.1 (j + 1) (Nat.succ_lt_succ hj)
        · obtain ⟨e, he⟩ := hf.2.2
          exact ⟨e, by simpa using he⟩
      obtain ⟨e, he, hs⟩ := ih k2 total (kk + 1) (acc ++ out) hrest
      exact ⟨e, by simp [proposalLoop, hout, he],
             by simp [proposalLoop, hout, hs]⟩

/-- C5: when the External Job Client fails on any topic of a non-cached
`CreateProposal` run, the call surfaces an error, no proposal artifact is
persisted, and `GetProposalProgress` thereafter reports a status that is
not `completed`, the status domain being idle/running/completed. -/
theorem createProposal_all_or_nothing (client : String → Except String String)
    (strip : String → String) (inputs : List String) (st : ProposalState)
    (k : Nat) (hmiss : st.artifact = none)
    (hfail : failsAtTopic client strip inputs k) :
    (∃ e, (createProposal client strip inputs st).1 = .error e) ∧
    (createProposal client strip inputs st).2.1.artifact = none ∧
    (getProposalProgress (createProposal client strip inputs st).2.1).status
      ≠ .completed ∧
    ((getProposalProgress (createProposal client strip inputs st).2.1).status
        = .idle ∨
      (getProposalProgress (createProposal client strip inputs st).2.1).status
        = .running ∨
      (getProposalProgress (createProposal client strip inputs st).2.1).status
        = .completed) := by
  obtain ⟨e, he, hs⟩ :=
    proposalLoop_fail client strip inputs k inputs.length 0 "" hfail
  refine ⟨⟨e, ?_⟩, ?_, ?_, ?_⟩
  · simp [createProposal, hmiss, he]
  · simp [createProposal, hmiss, he]
  · simp [createProposal, getProposalProgress, hmiss, he, hs]
  · simp [createProposal, getProposalProgress, hmiss, he, hs]

/-- Witness for C5: a client that fails on topic 1 of 5 leaves no
persisted proposal and a non-completed progress status. -/
theorem createProposal_all_or_nothing_witness :
    (createProposal (fun _ => .error "boom") (fun s2 => s2)
        ["a", "b", "c", "d", "e"] ⟨none, ⟨0, 5, .idle⟩⟩).2.1.artifact
      = none ∧
    (getProposalProgress
        (createProposal (fun _ => .error "boom") (fun s2 => s2)
          ["a", "b", "c", "d", "e"] ⟨none, ⟨0, 5, .idle⟩⟩).2.1).status
      ≠ .completed :=
  ⟨(createProposal_all_or_nothing (fun _ => .error "boom") (fun s2 => s2)
      ["a", "b", "c", "d", "e"] ⟨none, ⟨0, 5, .idle⟩⟩ 0 rfl
      ⟨by decide, fun j hj => absurd hj (Nat.not_lt_zero j),
        ⟨"boom", rfl⟩⟩).2.1,
   (createProposal_all_or_nothing (fun _ => .error "boom") (fun s2 => s2)
      ["a", "b", "c", "d", "e"] ⟨none, ⟨0, 5, .idle⟩⟩ 0 rfl
      ⟨by decide, fun j hj => absurd hj (Nat.not_lt_zero j),
        ⟨"boom", rfl⟩⟩).2.2.1⟩

/-- C6: `CreateProposal` on an entity with a persisted proposal artifact
returns that artifact with zero External Job Client calls; hence after a
first successful non-cached call persists its result, a second call
returns the same persisted result with zero new calls — exactly one
external invocation sequence across the two calls. -/
theorem createProposal_cache (client : String → Except String String)
    (strip : String → String) (inputs : List String) (st : ProposalState) :
    (∀ a, st.artifact = some a →
      createProposal client strip inputs st = (.ok a, st, 0)) ∧
    (st.artifact = none →
      ∀ p, (createProposal client strip inputs st).1 = .ok p →
        (createProposal client strip inputs st).2.1.artifact = some p ∧
        createProposal client strip inputs
            (createProposal client strip inputs st).2.1
          = (.ok p, (createProposal client strip inputs st).2.1, 0)) := by
  constructor
  · intro a ha
    simp [createProposal, ha]
  · intro hnone p hp
    cases hr : (proposalLoop client strip inputs inputs.length 0 "").1 with
    | error e =>
      exfalso
      simp [createProposal, hnone, hr] at hp
    | ok p2 =>
      have hp2 : p2 = p := by
        simpa [createProposal, hnone, hr] using hp
      subst hp2
      constructor
      · simp [createProposal, hnone, hr]
      · simp [createProposal, hnone, hr]

/-- Witness for C6: a cached call returns the persisted artifact with no
client calls, and after an all-success first call the result `a!b!` is
persisted. -/
theorem createProposal_cache_witness :
    createProposal (fun s2 => .ok (s2 ++ "!")) (fun s2 => s2) ["a", "b"]
        ⟨some "P", ⟨2, 2, .completed⟩⟩
      = (.ok "P", ⟨some "P", ⟨2, 2, .completed⟩⟩, 0) ∧
    (createProposal (fun s2 => .ok (s2 ++ "!")) (fun s2 => s2) ["a", "b"]
        ⟨none, ⟨0, 2, .idle⟩⟩).2.1.artifact = some "a!b!" :=
  ⟨(createProposal_cache (fun s2 => .ok (s2 ++ "!")) (fun s2 => s2)
      ["a", "b"] ⟨some "P", ⟨2, 2, .completed⟩⟩).1 "P" rfl,
   ((createProposal_cache (fun s2 => .ok (s2 ++ "!")) (fun s2 => s2)
      ["a", "b"] ⟨none, ⟨0, 2, .idle⟩⟩).2 rfl "a!b!" rfl).1⟩

/-! ## Completeness and progress (C7) -/

/-- C7: a topic artifact is complete iff its text or markdown content is
non-empty; the reported progress counts the requested topics with
non-empty content over the number of requested topics; and it is a pure
function of the stored artifacts — two status inputs with the same
artifacts yield the same progress whatever their liveness state, marker
files, clock or configuration. -/
theorem progress_pure (a : TopicArtifact) (requested : List (Fin 5))
    (cfg cfg2 : ReconConfig) (now now2 : Nat) (entity entity2 : String)
    (inp inp2 : StatusInput) (harts : inp.arts = inp2.arts) :
    (a.complete = true ↔ (a.text ≠ "" ∨ a.markdown ≠ "")) ∧
    (progressOf requested inp.arts).completedCount
      = (requested.filter (fun i => (inp.arts i).complete)).length ∧
    (progressOf requested inp.arts).total = requested.length ∧
    (getStatus cfg now entity inp requested).2
      = (getStatus cfg2 now2 entity2 inp2 requested).2 := by
  refine ⟨?_, rfl, rfl, ?_⟩
  · simp [TopicArtifact.complete, Bool.eq_false_iff, String.isEmpty_iff]
  · simp [getStatus, harts]

/-- Witness for C7: two radically different liveness states over the same
artifacts report identical progress. -/
theorem progress_pure_witness :
    (getStatus ⟨60, 3600⟩ 0 "A"
        ⟨some "A", true, ⟨none, none, false, false⟩, artsDone⟩ allTopics).2
      = (getStatus ⟨1, 1⟩ 999 "B"
        ⟨none, false, ⟨some 0, some 0, true, false⟩, artsDone⟩ allTopics).2 :=
  (progress_pure ⟨"x", ""⟩ allTopics ⟨60, 3600⟩ ⟨1, 1⟩ 0 999 "A" "B"
      ⟨some "A", true, ⟨none, none, false, false⟩, artsDone⟩
      ⟨none, false, ⟨some 0, some 0, true, false⟩, artsDone⟩ rfl).2.2.2

end REACHA
